import Mathlib

/-!
Shallow embedding of the MutantRolls CLR (Combined Liquidity Reserve)
share-accounting engine.

Source files embedded here:
  src/programs/mutr_clr/src/lib.rs   (the Anchor program; namespace Lib)
  src/mutr_clr_concept/mutr_clr.rs   (the conceptual design variant; namespace Concept)

Machine integers (u64, u128) are modelled as Nat together with explicit
bound checks: every checked_* operation of the Rust source becomes an
Option-valued helper that fails exactly when the source operation would
return None, and every raw cast (the Rust expression written x as u64)
becomes a truncating reduction modulo 2 to the 64.  Rust Result values
become Except values; a call to unwrap on a None is a panic, which aborts
the transaction, and is modelled as a distinct failure constructor so that
it is never confused with a returned MutrError.  SPL token CPIs (transfer,
mint, burn) are modelled as pure balance updates on a Chain record that
fail when the real CPI would (insufficient balance, balance overflow);
account fields read by the program are entry snapshots, exactly as Anchor
deserialises account data once at instruction entry and never reloads it.
-/

namespace MutrClr

/-- Maximum value of a 64-bit unsigned integer. -/
def U64MAX : Nat := 2 ^ 64 - 1

/-- Maximum value of a 128-bit unsigned integer. -/
def U128MAX : Nat := 2 ^ 128 - 1

/-- The reward-accounting precision constant from both source files
(const REWARD_PRECISION: u128 = 1_000_000_000_000). -/
def REWARD_PRECISION : Nat := 1000000000000

/-- The error enum MutrError, identical in both source files. -/
inductive MutrError
  | InvalidAmount
  | MathOverflow
  | ZeroShares
  | InsufficientShares
  | NoDividendShares
  | Unauthorized
  | InvalidMint
  | InvalidVault
  deriving DecidableEq

/-- How an instruction can fail: with a returned program error, with a
panic (a Rust unwrap applied to None aborts the transaction), or with a
failed token-program CPI. -/
inductive RunError
  | e : MutrError → RunError
  | panicked : RunError
  | cpi : RunError
  deriving DecidableEq

/-- Result type of an embedded instruction. -/
abbrev Res (α : Type) := Except RunError α

/-- u64 checked_add. -/
def checkedAdd64 (a b : Nat) : Option Nat :=
  if a + b ≤ U64MAX then some (a + b) else none

/-- u128 checked_add. -/
def checkedAdd128 (a b : Nat) : Option Nat :=
  if a + b ≤ U128MAX then some (a + b) else none

/-- u128 checked_mul. -/
def checkedMul128 (a b : Nat) : Option Nat :=
  if a * b ≤ U128MAX then some (a * b) else none

/-- checked_sub (same on u64 and u128: fails exactly on underflow). -/
def checkedSub (a b : Nat) : Option Nat :=
  if b ≤ a then some (a - b) else none

/-- checked_div (fails exactly when the divisor is zero). -/
def checkedDiv (a b : Nat) : Option Nat :=
  if b = 0 then none else some (a / b)

/-- The Rust expression x as u64: truncation modulo 2 to the 64. -/
def castU64 (a : Nat) : Nat := a % 2 ^ 64

/-- The Rust expression u64::try_from(x): succeeds iff x fits in u64. -/
def tryFromU64 (a : Nat) : Option Nat :=
  if a ≤ U64MAX then some a else none

/-- The accounting fields of GlobalState that the engine reads and writes
(the pubkeys and the bump are identity data handled by the runtime and
carry no accounting content). -/
structure GlobalState where
  stakeFeeBps : Nat
  unstakeFeeBps : Nat
  accRewardPerShare : Nat
  totalDividendShares : Nat
  deriving DecidableEq

/-- The accounting fields of UserState (the owner pubkey is identity data
checked by the runtime). -/
structure UserState where
  stakedShares : Nat
  dividendShares : Nat
  rewardDebt : Nat
  pendingRewards : Nat
  deriving DecidableEq

/-- Balances of the collaborator-managed token accounts touched by the
caller: the xMUTR mint total supply, the CLR vault MUTR balance, the
calling user's MUTR balance and xMUTR balance. -/
structure Chain where
  supply : Nat
  vault : Nat
  userMutr : Nat
  userXmutr : Nat
  deriving DecidableEq

/-- SPL token transfer: moves amount between two balances; fails when the
source is short or the destination balance would overflow u64. Returns
(new source balance, new destination balance). -/
def splTransfer (fromBal toBal amount : Nat) : Option (Nat × Nat) :=
  if amount ≤ fromBal ∧ toBal + amount ≤ U64MAX then
    some (fromBal - amount, toBal + amount)
  else none

/-- SPL token mint_to: increases supply and the destination balance; fails
when either would overflow u64. Returns (new supply, new destination). -/
def splMint (supply toBal amount : Nat) : Option (Nat × Nat) :=
  if supply + amount ≤ U64MAX ∧ toBal + amount ≤ U64MAX then
    some (supply + amount, toBal + amount)
  else none

/-- SPL token burn: decreases the source balance and the supply; fails when
the source is short. Returns (new supply, new source balance). -/
def splBurn (supply fromBal amount : Nat) : Option (Nat × Nat) :=
  if amount ≤ fromBal ∧ amount ≤ supply then
    some (supply - amount, fromBal - amount)
  else none

/-- Sum of a participant ledger entry: stakedShares + dividendShares. The
conservation invariant of the spec compares the total of this quantity
over all participants with the xMUTR supply. -/
def ledgerSum (u : UserState) : Nat := u.stakedShares + u.dividendShares

namespace Lib

/-- apply_fee from src/programs/mutr_clr/src/lib.rs lines 330-339: the
mul and div use unwrap (panic on failure), the u128 fee is narrowed with
a raw as u64 cast, and only the final checked_sub maps to MathOverflow. -/
def applyFee (amount feeBps : Nat) : Res Nat :=
  match checkedMul128 amount feeBps with
  | none => .error .panicked
  | some m =>
    match checkedDiv m 10000 with
    | none => .error .panicked
    | some d =>
      match checkedSub amount (castU64 d) with
      | none => .error (.e .MathOverflow)
      | some net => .ok net

/-- pending_rewards from lib.rs lines 352-368.  With zero dividend shares
the stored u128 pendingRewards is narrowed by a raw as u64 cast; otherwise
the wide expression (dividendShares * accRewardPerShare - rewardDebt) /
REWARD_PRECISION + pendingRewards is computed with unwraps and narrowed by
a raw as u64 cast. -/
def pendingRewards (s : GlobalState) (u : UserState) : Res Nat :=
  if u.dividendShares = 0 then .ok (castU64 u.pendingRewards)
  else
    match checkedMul128 u.dividendShares s.accRewardPerShare with
    | none => .error .panicked
    | some accumulated =>
      match checkedSub accumulated u.rewardDebt with
      | none => .error .panicked
      | some diff =>
        match checkedDiv diff REWARD_PRECISION with
        | none => .error .panicked
        | some dv =>
          match checkedAdd128 dv u.pendingRewards with
          | none => .error .panicked
          | some p => .ok (castU64 p)

/-- settle_user_rewards from lib.rs lines 342-349: adds the value returned
by pending_rewards (which itself already includes the stored
pendingRewards) onto the stored pendingRewards. -/
def settleUserRewards (s : GlobalState) (u : UserState) : Res UserState :=
  match pendingRewards s u with
  | .error f => .error f
  | .ok pending =>
    match checkedAdd128 u.pendingRewards pending with
    | none => .error (.e .MathOverflow)
    | some np => .ok { u with pendingRewards := np }

/-- The share-ratio computation inlined in stake, lib.rs lines 56-67:
bootstrap 1:1 when the supply or the pre-transfer vault balance is zero,
otherwise floor(netAmount * supply / vaultBefore) computed in u128 with
unwraps and narrowed by a raw as u64 cast. -/
def sharesToMintOf (netAmount supply vaultBefore : Nat) : Res Nat :=
  if supply = 0 ∨ vaultBefore = 0 then .ok netAmount
  else
    match checkedMul128 netAmount supply with
    | none => .error .panicked
    | some m =>
      match checkedDiv m vaultBefore with
      | none => .error .panicked
      | some d => .ok (castU64 d)

/-- stake from lib.rs lines 37-102.  Order of effects: amount check,
transfer of the full amount into the vault, fee on the gross amount, share
ratio from the entry snapshots of supply and vault balance, ZeroShares
check, mint, ledger credit.  Returns the new chain balances, the new user
ledger, and the number of shares minted. -/
def stake (s : GlobalState) (c : Chain) (u : UserState) (amount : Nat) :
    Res (Chain × UserState × Nat) :=
  if amount = 0 then .error (.e .InvalidAmount)
  else
    match splTransfer c.userMutr c.vault amount with
    | none => .error .cpi
    | some (userMutr1, vault1) =>
      match applyFee amount s.stakeFeeBps with
      | .error f => .error f
      | .ok netAmount =>
        match sharesToMintOf netAmount c.supply c.vault with
        | .error f => .error f
        | .ok shares =>
          if shares = 0 then .error (.e .ZeroShares)
          else
            match splMint c.supply c.userXmutr shares with
            | none => .error .cpi
            | some (supply1, userXmutr1) =>
              match checkedAdd64 u.stakedShares shares with
              | none => .error (.e .MathOverflow)
              | some newStaked =>
                .ok (⟨supply1, vault1, userMutr1, userXmutr1⟩,
                     { u with stakedShares := newStaked }, shares)

/-- unstake from lib.rs lines 105-163.  The balance guard is the
pool-aware comparison staked_shares >= shares + dividend_shares of line
111 (an unchecked u64 addition, wrapping in release mode); the payout
ratio uses the entry snapshots of the vault balance and the xMUTR supply
(Anchor account data is not reloaded after the burn CPI), computed in u128
with unwraps and narrowed by a raw as u64 cast.  Returns the new chain
balances, the new user ledger, and the net amount paid out. -/
def unstake (s : GlobalState) (c : Chain) (u : UserState) (shares : Nat) :
    Res (Chain × UserState × Nat) :=
  if shares = 0 then .error (.e .InvalidAmount)
  else
    if u.stakedShares < castU64 (shares + u.dividendShares) then
      .error (.e .InsufficientShares)
    else
      match splBurn c.supply c.userXmutr shares with
      | none => .error .cpi
      | some (supply1, userXmutr1) =>
        match checkedSub u.stakedShares shares with
        | none => .error (.e .MathOverflow)
        | some newStaked =>
          if c.supply = 0 then .error (.e .ZeroShares)
          else
            match checkedMul128 c.vault shares with
            | none => .error .panicked
            | some m =>
              match checkedDiv m c.supply with
              | none => .error .panicked
              | some d =>
                match applyFee (castU64 d) s.unstakeFeeBps with
                | .error f => .error f
                | .ok netAmount =>
                  match splTransfer c.vault c.userMutr netAmount with
                  | none => .error .cpi
                  | some (vault1, userMutr1) =>
                    .ok (⟨supply1, vault1, userMutr1, userXmutr1⟩,
                         { u with stakedShares := newStaked }, netAmount)

/-- join_dividend_pool from lib.rs lines 166-196: amount and balance
checks, settle, move shares from staked to dividend, raise the global
total, recompute the reward debt (with an unwrap on the mul). -/
def joinDividendPool (s : GlobalState) (u : UserState) (shares : Nat) :
    Res (GlobalState × UserState) :=
  if shares = 0 then .error (.e .InvalidAmount)
  else
    if u.stakedShares < shares then .error (.e .InsufficientShares)
    else
      match settleUserRewards s u with
      | .error f => .error f
      | .ok u1 =>
        match checkedSub u1.stakedShares shares with
        | none => .error (.e .MathOverflow)
        | some newStaked =>
          match checkedAdd64 u1.dividendShares shares with
          | none => .error (.e .MathOverflow)
          | some newDiv =>
            match checkedAdd128 s.totalDividendShares shares with
            | none => .error (.e .MathOverflow)
            | some newTotal =>
              match checkedMul128 newDiv s.accRewardPerShare with
              | none => .error .panicked
              | some newDebt =>
                .ok ({ s with totalDividendShares := newTotal },
                     { u1 with stakedShares := newStaked,
                               dividendShares := newDiv,
                               rewardDebt := newDebt })

/-- leave_dividend_pool from lib.rs lines 199-236: amount and balance
checks, settle, 4 percent fee on the share amount via apply_fee, full
share amount debited from dividendShares and from the global total, net
shares credited to stakedShares, reward debt recomputed.  The instruction
has no token accounts at all (its Accounts context holds only state,
user_state and the signer), so no xMUTR is burned and the chain balances
cannot change. -/
def leaveDividendPool (s : GlobalState) (u : UserState) (shares : Nat) :
    Res (GlobalState × UserState) :=
  if shares = 0 then .error (.e .InvalidAmount)
  else
    if u.dividendShares < shares then .error (.e .InsufficientShares)
    else
      match settleUserRewards s u with
      | .error f => .error f
      | .ok u1 =>
        match applyFee shares 400 with
        | .error f => .error f
        | .ok netShares =>
          match checkedSub u1.dividendShares shares with
          | none => .error (.e .MathOverflow)
          | some newDiv =>
            match checkedAdd64 u1.stakedShares netShares with
            | none => .error (.e .MathOverflow)
            | some newStaked =>
              match checkedSub s.totalDividendShares shares with
              | none => .error (.e .MathOverflow)
              | some newTotal =>
                match checkedMul128 newDiv s.accRewardPerShare with
                | none => .error .panicked
                | some newDebt =>
                  .ok ({ s with totalDividendShares := newTotal },
                       { u1 with stakedShares := newStaked,
                                 dividendShares := newDiv,
                                 rewardDebt := newDebt })

/-- record_profit from lib.rs lines 240-258: the only guard is
total_dividend_shares > 0; there is no amount > 0 check and the
instruction performs no token transfer (its Accounts context holds only
state and the authority signer), so the function is state-to-state. -/
def recordProfit (s : GlobalState) (profitAmount : Nat) : Res GlobalState :=
  if s.totalDividendShares = 0 then .error (.e .NoDividendShares)
  else
    match checkedMul128 profitAmount REWARD_PRECISION with
    | none => .error .panicked
    | some m =>
      match checkedDiv m s.totalDividendShares with
      | none => .error .panicked
      | some inc =>
        match checkedAdd128 s.accRewardPerShare inc with
        | none => .error (.e .MathOverflow)
        | some newAcc => .ok { s with accRewardPerShare := newAcc }

/-- claim_rewards from lib.rs lines 261-296: computes pending, returns a
no-op success when it is zero, otherwise zeroes pendingRewards, resets the
reward debt (unwrap on the mul) before the transfer, and transfers pending
from the vault to the user.  Returns the new chain balances, the new user
ledger, and the amount paid. -/
def claimRewards (s : GlobalState) (c : Chain) (u : UserState) :
    Res (Chain × UserState × Nat) :=
  match pendingRewards s u with
  | .error f => .error f
  | .ok pending =>
    if pending = 0 then .ok (c, u, 0)
    else
      match checkedMul128 u.dividendShares s.accRewardPerShare with
      | none => .error .panicked
      | some newDebt =>
        match splTransfer c.vault c.userMutr pending with
        | none => .error .cpi
        | some (vault1, userMutr1) =>
          .ok ({ c with vault := vault1, userMutr := userMutr1 },
               { u with pendingRewards := 0, rewardDebt := newDebt },
               pending)

end Lib

namespace Concept

/-- apply_fee from src/mutr_clr_concept/mutr_clr.rs lines 391-401: every
step is checked and maps to MathOverflow, and the u128 fee is narrowed
with u64::try_from instead of a raw cast. -/
def applyFee (amount feeBps : Nat) : Res Nat :=
  match checkedMul128 amount feeBps with
  | none => .error (.e .MathOverflow)
  | some m =>
    match checkedDiv m 10000 with
    | none => .error (.e .MathOverflow)
    | some feeWide =>
      match tryFromU64 feeWide with
      | none => .error (.e .MathOverflow)
      | some fee =>
        match checkedSub amount fee with
        | none => .error (.e .MathOverflow)
        | some net => .ok net

/-- pending_rewards from mutr_clr.rs lines 420-440: the same wide formula
as the program variant but with every step checked (MathOverflow) and both
narrowings done with u64::try_from. -/
def pendingRewards (s : GlobalState) (u : UserState) : Res Nat :=
  if u.dividendShares = 0 then
    match tryFromU64 u.pendingRewards with
    | none => .error (.e .MathOverflow)
    | some p => .ok p
  else
    match checkedMul128 u.dividendShares s.accRewardPerShare with
    | none => .error (.e .MathOverflow)
    | some accumulated =>
      match checkedSub accumulated u.rewardDebt with
      | none => .error (.e .MathOverflow)
      | some diff =>
        match checkedDiv diff REWARD_PRECISION with
        | none => .error (.e .MathOverflow)
        | some dv =>
          match checkedAdd128 dv u.pendingRewards with
          | none => .error (.e .MathOverflow)
          | some p =>
            match tryFromU64 p with
            | none => .error (.e .MathOverflow)
            | some pf => .ok pf

/-- settle_user_rewards from mutr_clr.rs lines 410-417: structurally
identical to the program variant, adding the value of pending_rewards
(which already contains the stored pendingRewards) onto the stored
pendingRewards. -/
def settleUserRewards (s : GlobalState) (u : UserState) : Res UserState :=
  match pendingRewards s u with
  | .error f => .error f
  | .ok pending =>
    match checkedAdd128 u.pendingRewards pending with
    | none => .error (.e .MathOverflow)
    | some np => .ok { u with pendingRewards := np }

/-- leave_dividend_pool from mutr_clr.rs lines 230-289: same ledger
updates as the program variant, but the fee shares are actually burned
from the user xMUTR account (the real SPL burn of lines 275-281), so the
chain balances are part of the state.  Returns the new global state, the
new chain balances and the new user ledger. -/
def leaveDividendPool (s : GlobalState) (c : Chain) (u : UserState)
    (shares : Nat) : Res (GlobalState × Chain × UserState) :=
  if shares = 0 then .error (.e .InvalidAmount)
  else
    if u.dividendShares < shares then .error (.e .InsufficientShares)
    else
      match settleUserRewards s u with
      | .error f => .error f
      | .ok u1 =>
        match checkedMul128 shares 400 with
        | none => .error (.e .MathOverflow)
        | some m =>
          match checkedDiv m 10000 with
          | none => .error (.e .MathOverflow)
          | some feeWide =>
            match tryFromU64 feeWide with
            | none => .error (.e .MathOverflow)
            | some feeShares =>
              match checkedSub shares feeShares with
              | none => .error (.e .MathOverflow)
              | some netShares =>
                match checkedSub u1.dividendShares shares with
                | none => .error (.e .MathOverflow)
                | some newDiv =>
                  match checkedAdd64 u1.stakedShares netShares with
                  | none => .error (.e .MathOverflow)
                  | some newStaked =>
                    match checkedSub s.totalDividendShares shares with
                    | none => .error (.e .MathOverflow)
                    | some newTotal =>
                      match splBurn c.supply c.userXmutr feeShares with
                      | none => .error .cpi
                      | some (supply1, userXmutr1) =>
                        match checkedMul128 newDiv s.accRewardPerShare with
                        | none => .error (.e .MathOverflow)
                        | some newDebt =>
                          .ok ({ s with totalDividendShares := newTotal },
                               { c with supply := supply1,
                                        userXmutr := userXmutr1 },
                               { u1 with stakedShares := newStaked,
                                         dividendShares := newDiv,
                                         rewardDebt := newDebt })

/-- record_profit from mutr_clr.rs lines 293-321: requires a positive
amount, requires a nonempty dividend pool, transfers the profit from the
authority source account into the vault, then raises the accumulator by
floor(amount * REWARD_PRECISION / totalDividendShares).  sourceBal is the
balance of the authority profit_source token account. -/
def recordProfit (s : GlobalState) (sourceBal vaultBal profitAmount : Nat) :
    Res (GlobalState × Nat × Nat) :=
  if profitAmount = 0 then .error (.e .InvalidAmount)
  else
    if s.totalDividendShares = 0 then .error (.e .NoDividendShares)
    else
      match splTransfer sourceBal vaultBal profitAmount with
      | none => .error .cpi
      | some (sourceBal1, vaultBal1) =>
        match checkedMul128 profitAmount REWARD_PRECISION with
        | none => .error (.e .MathOverflow)
        | some m =>
          match checkedDiv m s.totalDividendShares with
          | none => .error (.e .MathOverflow)
          | some inc =>
            match checkedAdd128 s.accRewardPerShare inc with
            | none => .error (.e .MathOverflow)
            | some newAcc =>
              .ok ({ s with accRewardPerShare := newAcc },
                   sourceBal1, vaultBal1)

end Concept

/-- Helper: the settle operation of the program changes only the
pendingRewards field; stakedShares and dividendShares pass through. -/
theorem settle_keeps_shares (s : GlobalState) (u u1 : UserState)
    (h : Lib.settleUserRewards s u = .ok u1) :
    u1.stakedShares = u.stakedShares ∧ u1.dividendShares = u.dividendShares := by
  unfold Lib.settleUserRewards at h
  split at h
  · exact Except.noConfusion h
  · split at h
    · exact Except.noConfusion h
    · injection h with h'
      subst h'
      exact ⟨rfl, rfl⟩

/-- C1: refuted on the code.  For the participant state with
dividendShares = 0, rewardDebt = 0 and pendingRewards = 5 (and any reserve
state), the internal settle operation sets pendingRewards to 10, not 5:
pending_rewards already includes the stored pendingRewards in its result
and settle_user_rewards adds that whole result onto the stored value
again, so settle doubles the stored amount and then adds the delta,
instead of leaving pendingRewards unchanged when dividendShares = 0 as the
claim states.  Both source variants share this structure. -/
theorem c1_settle_doubles_pending :
    Lib.settleUserRewards ⟨300, 300, 0, 0⟩ ⟨0, 0, 0, 5⟩ =
      .ok ⟨0, 0, 0, 10⟩ := rfl

/-- C2: refuted on the program.  A participant whose whole balance of 100
shares is enrolled in the dividend pool leaves with the full 100 shares;
the ledger ends at stakedShares = 96, dividendShares = 0, so the ledger
sum drops by the 4 fee shares, but the instruction has no token accounts
(leaveDividendPool is a pure ledger update), so no xMUTR is burned and the
share supply stays put: conservation of ledger sum against supply is
broken by exactly the fee amount. -/
theorem c2_leave_pool_breaks_conservation :
    Lib.leaveDividendPool ⟨300, 300, 0, 100⟩ ⟨0, 100, 0, 0⟩ 100 =
      .ok (⟨300, 300, 0, 0⟩, ⟨96, 0, 0, 0⟩) ∧
    ledgerSum ⟨96, 0, 0, 0⟩ + 4 = ledgerSum ⟨0, 100, 0, 0⟩ :=
  ⟨rfl, rfl⟩

/-- C3: refuted on the program.  record_profit accepts profitAmount = 0
and returns success with the state unchanged (the claim requires failure
for amount = 0); moreover the instruction is a pure state update with no
token accounts, so no base asset is ever transferred into the vault. -/
theorem c3_record_profit_accepts_zero :
    Lib.recordProfit ⟨300, 300, 0, 5⟩ 0 = .ok ⟨300, 300, 0, 5⟩ := rfl

/-- C4: refuted on the program.  A caller with stakedShares = 100 and
dividendShares = 50 asking to unstake 100 shares satisfies
0 < shares ≤ stakedShares, yet the program raises InsufficientShares,
because its guard is stakedShares >= shares + dividendShares rather than
the claimed stakedShares >= shares. -/
theorem c4_unstake_rejects_liquid_balance :
    Lib.unstake ⟨300, 300, 0, 0⟩ ⟨1000, 1000, 0, 150⟩ ⟨100, 50, 0, 0⟩ 100 =
      .error (.e .InsufficientShares) := rfl

/-- C5: counterexample.  From an empty reserve with both fees at 300 bps,
stake(1000) mints 970 shares, but the follow-up unstake(970) pays out 970
base units, not the 940 the claim states: the 30-unit stake fee was
retained in the vault, so the sole staker unstakes against a vault of 1000
with a supply of 970, recovering gross floor(1000 * 970 / 970) = 1000 and
net 1000 - 30 = 970. -/
theorem c5_scenario_pays_970_not_940 :
    Lib.stake ⟨300, 300, 0, 0⟩ ⟨0, 0, 1000, 0⟩ ⟨0, 0, 0, 0⟩ 1000 =
      .ok (⟨970, 1000, 0, 970⟩, ⟨970, 0, 0, 0⟩, 970) ∧
    Lib.unstake ⟨300, 300, 0, 0⟩ ⟨970, 1000, 0, 970⟩ ⟨970, 0, 0, 0⟩ 970 =
      .ok (⟨0, 30, 970, 0⟩, ⟨0, 0, 0, 0⟩, 970) ∧
    (970 : Nat) ≠ 940 :=
  ⟨rfl, rfl, by decide⟩

/-- C5 amended: from an empty reserve with both fees at 300 bps,
stake(1000) mints exactly 970 shares, and the subsequent unstake(970) by
the same user pays out exactly 970 base units, leaving the 30-unit
unstake fee in the vault: the gross recoverable is
floor(1000 * 970 / 970) = 1000 because the earlier 30-unit stake fee
stayed in the vault and accrues back to the sole staker. -/
theorem c5_amended_stake_unstake_roundtrip :
    Lib.stake ⟨300, 300, 0, 0⟩ ⟨0, 0, 1000, 0⟩ ⟨0, 0, 0, 0⟩ 1000 =
      .ok (⟨970, 1000, 0, 970⟩, ⟨970, 0, 0, 0⟩, 970) ∧
    Lib.unstake ⟨300, 300, 0, 0⟩ ⟨970, 1000, 0, 970⟩ ⟨970, 0, 0, 0⟩ 970 =
      .ok (⟨0, 30, 970, 0⟩, ⟨0, 0, 0, 0⟩, 970) :=
  ⟨rfl, rfl⟩

/-- C6: refuted on the program.  With zero stake fee, supply 2 to the 40,
vault balance 1 and deposit 2 to the 40 plus 1, the exact wide share ratio
is 2 to the 80 plus 2 to the 40, which does not fit in u64; the program
neither fails with MathOverflow nor returns the exact value: the raw
as u64 cast silently truncates it modulo 2 to the 64 and the instruction
succeeds, minting only 2 to the 40 shares. -/
theorem c6_stake_silently_truncates :
    Lib.stake ⟨0, 0, 0, 0⟩ ⟨2 ^ 40, 1, 2 ^ 40 + 1, 0⟩ ⟨0, 0, 0, 0⟩ (2 ^ 40 + 1) =
      .ok (⟨2 ^ 41, 2 ^ 40 + 2, 0, 2 ^ 40⟩, ⟨2 ^ 40, 0, 0, 0⟩, 2 ^ 40) ∧
    (2 ^ 40 + 1) * 2 ^ 40 / 1 = 2 ^ 80 + 2 ^ 40 ∧
    U64MAX < 2 ^ 80 + 2 ^ 40 :=
  ⟨rfl, by norm_num [Nat.pow_add], by decide⟩

/-- C7: refuted on the program.  Leaving the pool with 1000 shares debits
the full 1000 from dividendShares and from the global total and credits
the net 960 to stakedShares as the claim states, but the 40 fee shares are
not burned: the instruction has no token accounts at all, so the share
asset is untouched and the fee shares silently remain in circulation. -/
theorem c7_leave_pool_fee_not_burned :
    Lib.leaveDividendPool ⟨300, 300, 0, 1000⟩ ⟨0, 1000, 0, 0⟩ 1000 =
      .ok (⟨300, 300, 0, 0⟩, ⟨960, 0, 0, 0⟩) := rfl

/-- Helper: after claim_rewards resets the accounting (pendingRewards to
zero, rewardDebt to the current dividendShares times accumulator), the
pending computation yields zero. -/
theorem pendingRewards_after_reset (s : GlobalState) (u : UserState) (nd : Nat)
    (hm : checkedMul128 u.dividendShares s.accRewardPerShare = some nd) :
    Lib.pendingRewards s { u with pendingRewards := 0, rewardDebt := nd } =
      .ok 0 := by
  by_cases hd : u.dividendShares = 0
  · simp [Lib.pendingRewards, hd, castU64]
  · simp [Lib.pendingRewards, hd, hm, checkedSub, checkedDiv, checkedAdd128,
      castU64, REWARD_PRECISION]

/-- C8: confirmed on the program.  Whenever claim_rewards succeeds, the
amount paid is exactly the computed pending amount, an immediately
repeated claim (with no intervening record_profit) succeeds, pays exactly
zero and changes nothing, and a claim whose pending amount is zero is a
success that moves no funds and changes no state. -/
theorem c8_claim_rewards_idempotent (s : GlobalState) (c : Chain)
    (u : UserState) (c' : Chain) (u' : UserState) (p : Nat)
    (h : Lib.claimRewards s c u = .ok (c', u', p)) :
    Lib.pendingRewards s u = .ok p ∧
    Lib.claimRewards s c' u' = .ok (c', u', 0) ∧
    (p = 0 → c' = c ∧ u' = u) := by
  unfold Lib.claimRewards at h
  split at h
  · exact Except.noConfusion h
  rename_i p0 hp
  split at h
  · rename_i hz
    subst hz
    simp only [Except.ok.injEq, Prod.mk.injEq] at h
    obtain ⟨rfl, rfl, rfl⟩ := h
    refine ⟨hp, ?_, fun _ => ⟨rfl, rfl⟩⟩
    unfold Lib.claimRewards
    rw [hp]
    simp
  · rename_i hz
    split at h
    · exact Except.noConfusion h
    rename_i nd hm
    split at h
    · exact Except.noConfusion h
    rename_i v1 m1 ht
    simp only [Except.ok.injEq, Prod.mk.injEq] at h
    obtain ⟨rfl, rfl, rfl⟩ := h
    refine ⟨hp, ?_, fun hc => absurd hc hz⟩
    unfold Lib.claimRewards
    rw [pendingRewards_after_reset s u nd hm]
    simp

/-- C8 witness: a concrete participant with 5 pending reward units claims
them and an immediate second claim pays zero. -/
theorem c8_claim_rewards_idempotent_witness :
    Lib.pendingRewards ⟨0, 0, 0, 0⟩ ⟨0, 0, 0, 5⟩ = .ok 5 ∧
    Lib.claimRewards ⟨0, 0, 0, 0⟩ ⟨0, 5, 5, 0⟩ ⟨0, 0, 0, 0⟩ =
      .ok (⟨0, 5, 5, 0⟩, ⟨0, 0, 0, 0⟩, 0) ∧
    ((5 : Nat) = 0 → (⟨0, 5, 5, 0⟩ : Chain) = ⟨0, 10, 0, 0⟩ ∧
      (⟨0, 0, 0, 0⟩ : UserState) = ⟨0, 0, 0, 5⟩) :=
  c8_claim_rewards_idempotent ⟨0, 0, 0, 0⟩ ⟨0, 10, 0, 0⟩ ⟨0, 0, 0, 5⟩
    ⟨0, 5, 5, 0⟩ ⟨0, 0, 0, 0⟩ 5 rfl

/-- Helper: for any u64 amount and fee within 10000 basis points, both
variants of apply_fee return exactly amount minus
floor(amount * feeBps / 10000). -/
theorem applyFee_formula (amount feeBps : Nat) (ha : amount ≤ U64MAX)
    (hf : feeBps ≤ 10000) :
    Lib.applyFee amount feeBps = .ok (amount - amount * feeBps / 10000) ∧
    Concept.applyFee amount feeBps = .ok (amount - amount * feeBps / 10000) := by
  have hmul : amount * feeBps ≤ U128MAX := by
    calc amount * feeBps ≤ U64MAX * 10000 := Nat.mul_le_mul ha hf
    _ ≤ U128MAX := by decide
  have hfee : amount * feeBps / 10000 ≤ amount := by
    calc amount * feeBps / 10000 ≤ amount * 10000 / 10000 :=
      Nat.div_le_div_right (Nat.mul_le_mul_left amount hf)
    _ = amount := by omega
  have hcast : castU64 (amount * feeBps / 10000) = amount * feeBps / 10000 :=
    Nat.mod_eq_of_lt (lt_of_le_of_lt (le_trans hfee ha) (by norm_num [U64MAX]))
  constructor
  · simp [Lib.applyFee, checkedMul128, checkedDiv, checkedSub, hmul, hcast, hfee]
  · simp [Concept.applyFee, checkedMul128, checkedDiv, checkedSub, tryFromU64,
      hmul, hfee, le_trans hfee ha]

/-- C9: confirmed.  For every u64 amount and every feeBps within 10000,
apply_fee (in both source variants) succeeds and returns
amount - floor(amount * feeBps / 10000), which never exceeds amount; with
feeBps = 0 it is the identity and with feeBps = 10000 it returns zero. -/
theorem c9_apply_fee_total (amount feeBps : Nat) (ha : amount ≤ U64MAX)
    (hf : feeBps ≤ 10000) :
    Lib.applyFee amount feeBps = .ok (amount - amount * feeBps / 10000) ∧
    Concept.applyFee amount feeBps = .ok (amount - amount * feeBps / 10000) ∧
    amount - amount * feeBps / 10000 ≤ amount ∧
    Lib.applyFee amount 0 = .ok amount ∧
    Lib.applyFee amount 10000 = .ok 0 := by
  obtain ⟨h1, h2⟩ := applyFee_formula amount feeBps ha hf
  obtain ⟨h3, _⟩ := applyFee_formula amount 0 ha (by omega)
  obtain ⟨h4, _⟩ := applyFee_formula amount 10000 ha (by omega)
  refine ⟨h1, h2, Nat.sub_le _ _, by simpa using h3, ?_⟩
  have hc : amount * 10000 / 10000 = amount := by omega
  simpa [hc] using h4

/-- C9 witness: apply_fee at amount 100 and fee 300 bps in both variants. -/
theorem c9_apply_fee_total_witness :
    Lib.applyFee 100 300 = .ok (100 - 100 * 300 / 10000) ∧
    Concept.applyFee 100 300 = .ok (100 - 100 * 300 / 10000) ∧
    100 - 100 * 300 / 10000 ≤ 100 ∧
    Lib.applyFee 100 0 = .ok 100 ∧
    Lib.applyFee 100 10000 = .ok 0 :=
  c9_apply_fee_total 100 300 (by decide) (by decide)

/-- C10: confirmed.  For any reserve and participant state and any share
amount with 0 < shares ≤ 24 and shares ≤ dividendShares, a successful
leave_dividend_pool charges a zero exit fee
(floor(shares * 400 / 10000) = 0), credits the full share amount back to
stakedShares, and debits it from dividendShares and from the global total,
so the 4 percent exit fee is avoided entirely by leaving in chunks of at
most 24 shares. -/
theorem c10_small_leave_charges_no_fee (s : GlobalState) (u : UserState)
    (shares : Nat) (s' : GlobalState) (u' : UserState)
    (h1 : 0 < shares) (h2 : shares ≤ 24) (h3 : shares ≤ u.dividendShares)
    (hrun : Lib.leaveDividendPool s u shares = .ok (s', u')) :
    shares * 400 / 10000 = 0 ∧
    u'.stakedShares = u.stakedShares + shares ∧
    u'.dividendShares = u.dividendShares - shares ∧
    s'.totalDividendShares = s.totalDividendShares - shares := by
  have hfee : shares * 400 / 10000 = 0 := Nat.div_eq_of_lt (by omega)
  have hb : shares * 400 ≤ U128MAX :=
    le_trans (by omega) (by decide : (9600 : Nat) ≤ U128MAX)
  have hnet : Lib.applyFee shares 400 = .ok shares := by
    simp [Lib.applyFee, checkedMul128, checkedDiv, checkedSub, castU64,
      hfee, hb]
  unfold Lib.leaveDividendPool at hrun
  split at hrun
  · exact Except.noConfusion hrun
  split at hrun
  · exact Except.noConfusion hrun
  split at hrun
  · exact Except.noConfusion hrun
  rename_i u1 hsettle
  obtain ⟨hu1s, hu1d⟩ := settle_keeps_shares s u u1 hsettle
  split at hrun
  · exact Except.noConfusion hrun
  rename_i ns hns
  rw [hnet] at hns
  injection hns with hns
  subst hns
  split at hrun
  · exact Except.noConfusion hrun
  rename_i newDiv hdiv
  split at hrun
  · exact Except.noConfusion hrun
  rename_i newStaked hstk
  split at hrun
  · exact Except.noConfusion hrun
  rename_i newTotal htot
  split at hrun
  · exact Except.noConfusion hrun
  rename_i newDebt hdebt
  simp only [Except.ok.injEq, Prod.mk.injEq] at hrun
  obtain ⟨rfl, rfl⟩ := hrun
  simp only [checkedSub, checkedAdd64] at hdiv hstk htot
  rw [hu1d, if_pos h3] at hdiv
  injection hdiv with hdiv
  have hstk2 : u1.stakedShares + shares = newStaked := by
    by_cases hle : u1.stakedShares + shares ≤ U64MAX
    · rw [if_pos hle] at hstk
      exact Option.some.inj hstk
    · rw [if_neg hle] at hstk
      exact Option.noConfusion hstk
  have htot2 : s.totalDividendShares - shares = newTotal := by
    by_cases hle : shares ≤ s.totalDividendShares
    · rw [if_pos hle] at htot
      exact Option.some.inj htot
    · rw [if_neg hle] at htot
      exact Option.noConfusion htot
  refine ⟨hfee, ?_, ?_, ?_⟩
  · show newStaked = u.stakedShares + shares
    omega
  · show newDiv = u.dividendShares - shares
    omega
  · show newTotal = s.totalDividendShares - shares
    omega

/-- C10 witness: a participant with 24 dividend shares leaves the pool in
one 24-share chunk and pays no exit fee. -/
theorem c10_small_leave_charges_no_fee_witness :
    24 * 400 / 10000 = 0 ∧
    (⟨34, 0, 0, 0⟩ : UserState).stakedShares =
      (⟨10, 24, 0, 0⟩ : UserState).stakedShares + 24 ∧
    (⟨34, 0, 0, 0⟩ : UserState).dividendShares =
      (⟨10, 24, 0, 0⟩ : UserState).dividendShares - 24 ∧
    (⟨300, 300, 0, 26⟩ : GlobalState).totalDividendShares =
      (⟨300, 300, 0, 50⟩ : GlobalState).totalDividendShares - 24 :=
  c10_small_leave_charges_no_fee ⟨300, 300, 0, 50⟩ ⟨10, 24, 0, 0⟩ 24
    ⟨300, 300, 0, 26⟩ ⟨34, 0, 0, 0⟩ (by decide) (by decide) (by decide) rfl

end MutrClr
